import Mathlib

/-!
Shallow embedding of `validator/app.py` (openstax/response-collector).

The scoring pipeline is embedded as executable Lean functions:

* `PyVal` models the dynamically typed Python values flowing through the
  option parameters (`"auto"` strings, booleans, numbers, `None`).
* `countsFor` / `parse_and_classify` embed the feature-count loop and the
  linear decision of `parse_and_classify` (app.py lines 136-190).
* `get_question_data_by_key` / `get_question_data` embed the vocabulary
  resolution (lines 82-133).
* `validate_response` embeds the two-pass spelling-correction policy
  (lines 193-255).
* `make_tristate` embeds the tristate coercion (lines 258-275).
* `validation_new` embeds the math-override scoring variant
  (lines 355-365 of `validation_new_api_entry`).
* `validation_train` embeds the calibration routine (lines 379-421),
  parameterised over the external sklearn fit / cross-validation calls.

The external text normalizer (`StaxStringProc.process_string_spelling_limit`)
is an external collaborator consumed through a fixed contract; embeddings are
parameterised over it as a function `ParserFn`.
-/

namespace RespVal

/-- Dynamically typed Python value, as used for the tristate option
parameters of the validator (`"auto"`, booleans, ints, floats, `None`). -/
inductive PyVal where
  | none
  | bool (b : Bool)
  | int (n : Int)
  | float (q : ℚ)
  | str (s : String)
  deriving DecidableEq

/-- Python truthiness (`bool(v)`) for the embedded values. -/
def truthy : PyVal → Bool
  | PyVal.none => false
  | PyVal.bool b => b
  | PyVal.int n => decide (n ≠ 0)
  | PyVal.float q => decide (q ≠ 0)
  | PyVal.str s => decide (s ≠ "")

/-- Python `a or b`: returns `a` when `a` is truthy, else `b`. -/
def py_or (a b : PyVal) : PyVal := if truthy a then a else b

/-- Python `a and b`: returns `b` when `a` is truthy, else `a`. -/
def py_and (a b : PyVal) : PyVal := if truthy a then b else a

/-- Python `v == "auto"` for an embedded value. -/
def isAuto : PyVal → Bool
  | PyVal.str s => s == "auto"
  | _ => false

/-- Ordered vocabulary dictionary: feature-category name to word set
(Python `OrderedDict` of sets, sets modelled as lists). -/
abbrev VocabDict := List (String × List String)

/-- Dictionary access `feature_vocab_dict[key]` (missing key yields the
empty set; in the program the keys always coincide with the weight keys). -/
def dictGet (d : VocabDict) (k : String) : List String :=
  (List.lookup k d).getD []

/-- Lookup of a count in the ordered count dictionary, defaulting to 0. -/
def countsLookup (c : List (String × Nat)) (k : String) : Nat :=
  (List.lookup k c).getD 0

/-- Total of all counts in the count dictionary. -/
def totalCount (c : List (String × Nat)) : Nat :=
  (c.map (fun kv => kv.2)).sum

/-- The first feature key, in the declared order of `feature_weight_dict`,
whose weight is truthy (non-zero) and whose vocabulary set contains the
word - the category that the inner loop of `parse_and_classify` increments
before `break`. -/
def firstMatchKey (W : List (String × ℚ)) (V : VocabDict) (w : String) :
    Option String :=
  (W.find? (fun kv => decide (kv.2 ≠ 0) && (dictGet V kv.1).contains w)).map
    (fun kv => kv.1)

/-- Increment the first entry with the given key in the count dictionary
(`feature_count_dict[key] += 1`). -/
def bump : List (String × Nat) → String → List (String × Nat)
  | [], _ => []
  | (k0, n) :: rest, k =>
      if k0 = k then (k0, n + 1) :: rest else (k0, n) :: bump rest k

/-- One iteration of the outer word loop of `parse_and_classify`. -/
def countStep (W : List (String × ℚ)) (V : VocabDict)
    (c : List (String × Nat)) (w : String) : List (String × Nat) :=
  match firstMatchKey W V w with
  | some k => bump c k
  | Option.none => c

/-- The feature-count computation of `parse_and_classify` (lines 157-169):
initialize every count to 0, then for each word scan the categories in
declared order and increment the first applicable one. -/
def countsFor (W : List (String × ℚ)) (V : VocabDict)
    (tokens : List String) : List (String × Nat) :=
  tokens.foldl (countStep W V) (W.map (fun kv => (kv.1, 0)))

/-- The intercept constant `PARSER_FEATURE_INTERCEPT` (line 51). -/
def PARSER_FEATURE_INTERCEPT : ℚ := 0

/-- The default feature weights `PARSER_FEATURE_DICT` (lines 40-49). -/
def PARSER_FEATURE_DICT : List (String × ℚ) :=
  [("stem_word_count", 0),
   ("option_word_count", 0),
   ("innovation_word_count", 2.2),
   ("domain_word_count", 2.5),
   ("bad_word_count", -3),
   ("common_word_count", 0.7)]

/-- Weighted sum of counts against weights, written from the spec phrase
"sum over categories of count_i * weight_i" (used to restate the zip-based
inner product of the source). -/
def dotSum : List Nat → List ℚ → ℚ
  | c :: cs, w :: ws => (c : ℚ) * w + dotSum cs ws
  | _, _ => 0

/-- The external text normalizer contract
`process_string_spelling_limit(response, remove_stopwords, tag_numeric,
correct_spelling, kill_nonwords, spell_correction_max)`, returning the
token list and the number of spelling corrections applied. -/
abbrev ParserFn :=
  String → PyVal → PyVal → PyVal → PyVal → PyVal → (List String × Nat)

/-- The dictionary returned by `parse_and_classify` (lines 178-190). -/
structure ParseResult where
  response : String
  remove_stopwords : PyVal
  tag_numeric : PyVal
  spelling_correction_used : PyVal
  num_spelling_correction : Nat
  remove_nonwords : PyVal
  processed_response : String
  counts : List (String × Nat)
  inner_product : ℚ
  valid : Bool
  deriving DecidableEq

/-- Embedding of `parse_and_classify` (lines 136-190), parameterised over
the external normalizer `P`. -/
def parse_and_classify (P : ParserFn) (response : String)
    (feature_weight_dict : List (String × ℚ))
    (feature_vocab_dict : VocabDict)
    (remove_stopwords tag_numeric spelling_correction remove_nonwords
      spell_correction_limit : PyVal) : ParseResult :=
  let parsed := P response remove_stopwords tag_numeric spelling_correction
    remove_nonwords spell_correction_limit
  let response_words := parsed.1
  let num_spelling_corrections := parsed.2
  let feature_count_dict :=
    countsFor feature_weight_dict feature_vocab_dict response_words
  let inner_product :=
    ((feature_count_dict.zip feature_weight_dict).map
      (fun p => (p.1.2 : ℚ) * p.2.2)).sum + PARSER_FEATURE_INTERCEPT
  let valid := decide (inner_product > 0)
  { response := response
    remove_stopwords := remove_stopwords
    tag_numeric := tag_numeric
    spelling_correction_used := spelling_correction
    num_spelling_correction := num_spelling_corrections
    remove_nonwords := remove_nonwords
    processed_response := String.intercalate " " response_words
    counts := feature_count_dict
    inner_product := inner_product
    valid := valid }

/-- One row of the question table `df_questions` (uid, qid, module id,
stem words, multiple-choice words, numeric-content flag). -/
structure Question where
  uid : String
  qid : String
  module_id : String
  stem_words : List String
  mc_words : List String
  contains_number : Bool
  deriving DecidableEq

/-- One row of the innovation-word table `df_innovation`. -/
structure InnovRow where
  module_id : String
  innovation_words : List String
  subject_name : String
  deriving DecidableEq

/-- One row of the domain-word table `df_domain`
(`CNX Book Name` paired with its domain words). -/
structure DomainRow where
  book_name : String
  domain_words : List String
  deriving DecidableEq

/-- The process-wide reference data loaded at startup: the three tables
plus the global bad-word and common-word vocabularies. -/
structure Env where
  questions : List Question
  innovation : List InnovRow
  domain : List DomainRow
  bad_vocab : List String
  common_vocab : List String
  deriving DecidableEq

/-- The `uid_set` column list (line 58). -/
def uidSet (env : Env) : List String := env.questions.map (fun q => q.uid)

/-- The `qid_set` column list (line 59). -/
def qidSet (env : Env) : List String := env.questions.map (fun q => q.qid)

/-- The lookup key used by `get_question_data_by_key` (`"uid"` / `"qid"`). -/
inductive QKey where
  | uid
  | qid
  deriving DecidableEq

/-- Column selection for a key. -/
def keyVal : QKey → Question → String
  | QKey.uid, q => q.uid
  | QKey.qid, q => q.qid

/-- Embedding of `get_question_data_by_key` (lines 82-111): find the first
question row matching the key, then its module's innovation words and that
module's subject's domain words, and assemble the ordered vocabulary
dictionary. A missing question/module/subject row (pandas `iloc[0]` on an
empty frame) is modelled as `Option.none`. -/
def get_question_data_by_key (env : Env) (key : QKey) (val : String) :
    Option (VocabDict × String × PyVal) :=
  match env.questions.find? (fun q => keyVal key q == val) with
  | Option.none => Option.none
  | some first_q =>
    match env.innovation.find? (fun r => r.module_id == first_q.module_id) with
    | Option.none => Option.none
    | some innov =>
      match env.domain.find? (fun r => r.book_name == innov.subject_name) with
      | Option.none => Option.none
      | some dom =>
        some
          ([("stem_word_count", first_q.stem_words),
            ("option_word_count", first_q.mc_words),
            ("innovation_word_count", innov.innovation_words),
            ("domain_word_count", dom.domain_words),
            ("bad_word_count", env.bad_vocab),
            ("common_word_count", env.common_vocab)],
           first_q.uid,
           PyVal.bool first_q.contains_number)

/-- The fallback vocabulary dictionary of `get_question_data`
(lines 122-131): empty stem/option/innovation/domain sets, global
bad/common sets. -/
def defaultVocabDict (env : Env) : VocabDict :=
  [("stem_word_count", []),
   ("option_word_count", []),
   ("innovation_word_count", []),
   ("domain_word_count", []),
   ("bad_word_count", env.bad_vocab),
   ("common_word_count", env.common_vocab)]

/-- The qid prefix `uid.split("@")[0]`: the characters before the first
`@` (the whole string when there is none). -/
def qid_of (u : String) : String :=
  String.mk (u.toList.takeWhile (fun c => c ≠ '@'))

/-- Embedding of `get_question_data` (lines 114-133): exact uid match
first, then qid-prefix fallback (`uid.split("@")[0]`), else the default
bundle with no resolved uid and no numeric flag. -/
def get_question_data (env : Env) (uid : Option String) :
    Option (VocabDict × Option String × PyVal) :=
  match uid with
  | some u =>
    let qid := qid_of u
    if u ∈ uidSet env then
      (get_question_data_by_key env QKey.uid u).map
        (fun r => (r.1, some r.2.1, r.2.2))
    else if qid ∈ qidSet env then
      (get_question_data_by_key env QKey.qid qid).map
        (fun r => (r.1, some r.2.1, r.2.2))
    else some (defaultVocabDict env, Option.none, PyVal.none)
  | Option.none => some (defaultVocabDict env, Option.none, PyVal.none)

/-- The resolution of `tag_numeric` performed at line 211:
`tag_numeric or ((tag_numeric == "auto") and has_numeric)`. -/
def resolveTagNumeric (tag_numeric has_numeric : PyVal) : PyVal :=
  py_or tag_numeric (py_and (PyVal.bool (isAuto tag_numeric)) has_numeric)

/-- The `uid_found` flag computed at line 253 (`uid_used in uid_set`;
Python `None` is never equal to a string). -/
def uid_found_of (env : Env) (uid_used : Option String) : Bool :=
  match uid_used with
  | some u => (uidSet env).contains u
  | Option.none => false

/-- The full dictionary returned by `validate_response`: the
`parse_and_classify` result plus the metadata attached at lines 250-253. -/
structure ValidationResult extends ParseResult where
  tag_numeric_input : PyVal
  spelling_correction : PyVal
  uid_used : Option String
  uid_found : Bool
  deriving DecidableEq

/-- Attachment of the result metadata (lines 250-253). -/
def attachMeta (rd : ParseResult) (tag_numeric_input spelling_correction : PyVal)
    (uid_used : Option String) (uid_found : Bool) : ValidationResult :=
  { toParseResult := rd
    tag_numeric_input := tag_numeric_input
    spelling_correction := spelling_correction
    uid_used := uid_used
    uid_found := uid_found }

/-- Embedding of `validate_response` (lines 193-255): resolve the question
vocabulary, resolve `tag_numeric`, then either a single
`parse_and_classify` pass (when `spelling_correction != "auto"`) or the
two-pass retry (pass 1 without correction and, only when pass 1 is
invalid, pass 2 with correction replacing it). -/
def validate_response (P : ParserFn) (env : Env) (response : String)
    (uid : Option String) (feature_weight_dict : List (String × ℚ))
    (remove_stopwords tag_numeric spelling_correction remove_nonwords
      spell_correction_max : PyVal) : Option ValidationResult :=
  match get_question_data env uid with
  | Option.none => Option.none
  | some (vocab_dict, uid_used, has_numeric) =>
    let tag_numeric_input := tag_numeric
    let tag_numeric2 := resolveTagNumeric tag_numeric has_numeric
    let rd :=
      if isAuto spelling_correction then
        let r1 := parse_and_classify P response feature_weight_dict vocab_dict
          remove_stopwords tag_numeric2 (PyVal.bool false) remove_nonwords
          spell_correction_max
        if r1.valid then r1
        else parse_and_classify P response feature_weight_dict vocab_dict
          remove_stopwords tag_numeric2 (PyVal.bool true) remove_nonwords
          spell_correction_max
      else
        parse_and_classify P response feature_weight_dict vocab_dict
          remove_stopwords tag_numeric2 spelling_correction remove_nonwords
          spell_correction_max
    some (attachMeta rd tag_numeric_input spelling_correction uid_used
      (uid_found_of env uid_used))

/-- The math pattern of `validation_new_api_entry` (line 362): the regular
expression `[\+\-\*\=\/\d]` searched over the raw response text, i.e. the
response contains one of `+ - * = /` or a digit. -/
def respHasMath (s : String) : Bool :=
  s.toList.any (fun c =>
    c = '+' || c = '-' || c = '*' || c = '=' || c = '/' || c.isDigit)

/-- Embedding of the math-override scoring variant
`validation_new_api_entry` (lines 355-365, transport marshalling aside):
run `validate_response`, re-resolve the question by the resolved uid, and
replace `valid` with `valid or (bool(has_numeric) and resp_has_math)`. -/
def validation_new (P : ParserFn) (env : Env) (response : String)
    (uid : Option String) (feature_weight_dict : List (String × ℚ))
    (rs tn sc rn sm : PyVal) : Option ValidationResult :=
  match validate_response P env response uid feature_weight_dict rs tn sc rn sm with
  | Option.none => Option.none
  | some rd =>
    match get_question_data env rd.uid_used with
    | Option.none => Option.none
    | some (_, _, has_numeric) =>
      let resp_has_math := respHasMath response
      some { rd with valid := rd.valid || (truthy has_numeric && resp_has_math) }

/-- Numeric value of a digit list, most significant first. -/
def digitsToNat (cs : List Char) : Nat :=
  cs.foldl (fun n c => n * 10 + (c.toNat - Char.toNat '0')) 0

/-- A non-empty all-digit character list. -/
def isDigits (cs : List Char) : Bool :=
  !cs.isEmpty && cs.all (fun c => c.isDigit)

/-- Model of Python `int(s)` on a string: an optional sign followed by
digits (whitespace/underscore forms are not modelled; none occur in the
program's inputs). -/
def str_to_int (s : String) : Option Int :=
  match s.toList with
  | '-' :: rest =>
      if isDigits rest then some (-(digitsToNat rest : Int)) else Option.none
  | '+' :: rest =>
      if isDigits rest then some (digitsToNat rest : Int) else Option.none
  | cs => if isDigits cs then some (digitsToNat cs : Int) else Option.none

/-- Decimal body of a float literal: `digits`, `digits.`, `digits.digits`
or `.digits`. -/
def floatBody (cs : List Char) : Option ℚ :=
  let intPart := cs.takeWhile (fun c => c.isDigit)
  let rest := cs.drop intPart.length
  match rest with
  | [] => if !intPart.isEmpty then some (digitsToNat intPart : ℚ) else Option.none
  | '.' :: frac =>
      if frac.all (fun c => c.isDigit) && (!intPart.isEmpty || !frac.isEmpty) then
        some ((digitsToNat intPart : ℚ) +
          (digitsToNat frac : ℚ) / ((10 : ℚ) ^ frac.length))
      else Option.none
  | _ => Option.none

/-- Model of Python `float(s)` on a string: an optional sign followed by a
decimal body (exponent forms are not modelled; none occur in the
program's inputs). -/
def str_to_float (s : String) : Option ℚ :=
  match s.toList with
  | '-' :: rest => (floatBody rest).map (fun q => -q)
  | '+' :: rest => floatBody rest
  | cs => floatBody cs

/-- Truncation toward zero, as Python `int()` of a float. -/
def ratTrunc (q : ℚ) : Int := if 0 ≤ q then ⌊q⌋ else ⌈q⌉

/-- Model of Python `int(var)`: ints pass through, booleans become 0/1,
floats truncate toward zero, strings parse; a failure is `none`
(Python raises `ValueError` there; `int(None)` would raise an uncaught
`TypeError`, but `None` never reaches `make_tristate` in the program and
is modelled as a failed parse). -/
def pyIntOpt : PyVal → Option PyVal
  | PyVal.int n => some (PyVal.int n)
  | PyVal.bool b => some (PyVal.int (if b then 1 else 0))
  | PyVal.float q => some (PyVal.int (ratTrunc q))
  | PyVal.str s => (str_to_int s).map PyVal.int
  | PyVal.none => Option.none

/-- Model of Python `float(var)` (the surrounding bare `except` catches
every failure). -/
def pyFloatOpt : PyVal → Option PyVal
  | PyVal.int n => some (PyVal.float (n : ℚ))
  | PyVal.bool b => some (PyVal.float (if b then 1 else 0))
  | PyVal.float q => some (PyVal.float q)
  | PyVal.str s => (str_to_float s).map PyVal.float
  | PyVal.none => Option.none

/-- Python `type(v) == int` (false for booleans: `type(True)` is `bool`). -/
def isIntType : PyVal → Bool
  | PyVal.int _ => true
  | _ => false

/-- Python `type(v) == bool`. -/
def isBoolType : PyVal → Bool
  | PyVal.bool _ => true
  | _ => false

/-- The tuple `("False", "false", "f", "0", "None", "")` of line 270. -/
def falseTokens : List String := ["False", "false", "f", "0", "None", ""]

/-- The tuple `("True", "true", "t", "1")` of line 272. -/
def trueTokens : List String := ["True", "true", "t", "1"]

/-- Python `var in tuple-of-strings`: only an equal string is a member. -/
def inStrTuple (var : PyVal) (ts : List String) : Bool :=
  match var with
  | PyVal.str s => ts.contains s
  | _ => false

/-- Embedding of `make_tristate` (lines 258-275): when the default's type
is exactly `int`, try `int(var)` then `float(var)`, returning the parsed
number; otherwise `"auto"` and booleans pass through, the exact boolean
literal tuples map to `False`/`True`, and anything else falls back to the
default. -/
def make_tristate (var default : PyVal) : PyVal :=
  let numeric : Option PyVal :=
    if isIntType default then
      match pyIntOpt var with
      | some v => some v
      | Option.none =>
        match pyFloatOpt var with
        | some v => some v
        | Option.none => Option.none
    else Option.none
  match numeric with
  | some v => v
  | Option.none =>
    if isAuto var || isBoolType var then var
    else if inStrTuple var falseTokens then PyVal.bool false
    else if inStrTuple var trueTokens then PyVal.bool true
    else default

/-- The token phase of the tristate coercion, written from the amended
claim: `"auto"` and booleans pass through; the exact case-sensitive
literals `False/false/f/0/None/` (empty) map to false and
`True/true/t/1` map to true; anything else is the declared default. -/
def tristateTokens (var default : PyVal) : PyVal :=
  match var with
  | PyVal.str s =>
    if s = "auto" then PyVal.str s
    else if s = "False" ∨ s = "false" ∨ s = "f" ∨ s = "0" ∨ s = "None" ∨ s = ""
      then PyVal.bool false
    else if s = "True" ∨ s = "true" ∨ s = "t" ∨ s = "1" then PyVal.bool true
    else default
  | PyVal.bool b => PyVal.bool b
  | _ => default

/-- The tristate coercion as the amended claim states it: numeric parsing
(int then float) happens exactly when the declared default's Python type
is `int`; in every other case, and when both parses fail, the token phase
decides. -/
def make_tristate_amended (var default : PyVal) : PyVal :=
  match default with
  | PyVal.int _ =>
    match pyIntOpt var with
    | some r => r
    | Option.none =>
      match pyFloatOpt var with
      | some r => r
      | Option.none => tristateTokens var default
  | _ => tristateTokens var default

/-- The calibration failure of the spec's taxonomy: a single-class label
set (`DegenerateTrainingSetError`). -/
inductive TrainError where
  | degenerateTrainingSet
  deriving DecidableEq

/-- Contract of the external linear-classifier fit
(`LogisticRegression(...).fit` followed by reading `coef_` and
`intercept_`): coefficients and an intercept, or a failure. -/
abbrev FitFn := List (List ℚ) → List Bool → Except TrainError (List ℚ × ℚ)

/-- Contract of the external k-fold cross-validation
(`cross_val_score`): per-fold scores, or a failure. -/
abbrev CvFn := ℕ → List (List ℚ) → List Bool → Except TrainError (List ℚ)

/-- One row of the training dataframe `response_df`. -/
structure TrainRow where
  free_response : String
  uid : Option String
  valid_label : Bool
  deriving DecidableEq

/-- The output of the calibration routine: fitted coefficient per selected
feature, intercept, cross-validation score (or the `-1` sentinel), and
the per-example output table. -/
structure TrainResult where
  coefficients : List (String × ℚ)
  intercept : ℚ
  cross_val_score : ℚ
  output_rows : List ValidationResult
  deriving DecidableEq

/-- The selected features `[k for k in keys if train_feature_dict[k]]`
(line 382): every category whose supplied weight is truthy (non-zero). -/
def features_to_consider (train_feature_dict : List (String × ℚ)) : List String :=
  (train_feature_dict.filter (fun kv => decide (kv.2 ≠ 0))).map (fun kv => kv.1)

/-- The per-row application of `validate_response` over the training
dataframe (lines 394-399). -/
def buildOutputRows (P : ParserFn) (env : Env)
    (train_feature_dict : List (String × ℚ)) (rs tn sc rn sm : PyVal)
    (rows : List TrainRow) : Option (List ValidationResult) :=
  rows.mapM (fun row =>
    validate_response P env row.free_response row.uid train_feature_dict
      rs tn sc rn sm)

/-- The feature matrix `output_df[features_to_consider].values`
(line 406). -/
def designMatrix (features : List String) (output : List ValidationResult) :
    List (List ℚ) :=
  output.map (fun r => features.map (fun k => (countsLookup r.counts k : ℚ)))

/-- `float(np.mean(xs))` for a score array. -/
def meanScores (xs : List ℚ) : ℚ := xs.sum / (xs.length : ℚ)

/-- Embedding of the calibration logic of `validation_train`
(lines 379-421, transport marshalling aside), parameterised over the
external fit and cross-validation calls: run every row through
`validate_response`, build the feature matrix and label vector, run
cross-validation only when `cv > 1` (otherwise the score stays the `-1`
sentinel), and always fit the final model on the full matrix. -/
def validation_train (fit : FitFn) (cvs : CvFn) (P : ParserFn) (env : Env)
    (train_feature_dict : List (String × ℚ)) (rs tn sc rn sm : PyVal)
    (cv_input : ℕ) (rows : List TrainRow) :
    Option (Except TrainError TrainResult) :=
  match buildOutputRows P env train_feature_dict rs tn sc rn sm rows with
  | Option.none => Option.none
  | some output =>
    let features := features_to_consider train_feature_dict
    let X := designMatrix features output
    let y := rows.map (fun row => row.valid_label)
    some (do
      let scores ← if cv_input > 1 then cvs cv_input X y else Except.ok []
      let fitted ← fit X y
      Except.ok
        { coefficients := features.zip fitted.1
          intercept := fitted.2
          cross_val_score := if cv_input > 1 then meanScores scores else -1
          output_rows := output })

/-- A label vector containing a single class only. -/
def singleClass (y : List Bool) : Bool :=
  y.all (fun b => b) || y.all (fun b => !b)

/-- Modelled from the spec: the external sklearn logistic-regression fit
(`LogisticRegression(solver='saga').fit`, not part of this repository)
"fails with a DegenerateTrainingSetError if labels contain a single class
only" and otherwise yields one coefficient per feature column and an
intercept (the numeric values are unspecified by the spec; zeros here). -/
def fitModelled : FitFn := fun X y =>
  if singleClass y then Except.error TrainError.degenerateTrainingSet
  else Except.ok ((X.headD []).map (fun _ => 0), 0)

/-- Modelled from the spec: the external `cross_val_score` (sklearn, not
part of this repository) produces an array of per-fold scores for a
k-fold cross-validation, and cannot fit on a single-class label set. -/
def cross_val_modelled : CvFn := fun cv _ y =>
  if singleClass y then Except.error TrainError.degenerateTrainingSet
  else Except.ok (List.replicate cv 1)

/-- Concrete reference data used to evaluate the embedding: one question
`q@1` (qid `q`, module `m`, subject `s`) with no numeric content, empty
vocabularies. -/
def envA : Env :=
  { questions := [⟨"q@1", "q", "m", [], [], false⟩]
    innovation := [⟨"m", [], "s"⟩]
    domain := [⟨"s", []⟩]
    bad_vocab := []
    common_vocab := [] }

/-- Concrete reference data with a numeric-content question and a
non-empty bad-word vocabulary. -/
def envB : Env :=
  { questions := [⟨"q@1", "q", "m", [], [], true⟩]
    innovation := [⟨"m", [], "s"⟩]
    domain := [⟨"s", []⟩]
    bad_vocab := ["junk"]
    common_vocab := [] }

/-- Concrete reference data with no questions and a one-word common
vocabulary. -/
def envC : Env :=
  { questions := []
    innovation := []
    domain := []
    bad_vocab := []
    common_vocab := ["hi"] }

/-- A normalizer run that produces no tokens and no corrections. -/
def Pnil : ParserFn := fun _ _ _ _ _ _ => ([], 0)

/-- A normalizer run that always produces the single token `hi`. -/
def Phi : ParserFn := fun _ _ _ _ _ _ => (["hi"], 0)

/-- A normalizer run that always produces the single token `junk`. -/
def Pjunk : ParserFn := fun _ _ _ _ _ _ => (["junk"], 0)

/-- A weight map with only the bad-word category active, at weight -3. -/
def WnegB : List (String × ℚ) := [("bad_word_count", -3)]

/-- The vocabulary bundle that `get_question_data` resolves for `q@1`
in `envB`. -/
def vdB : VocabDict :=
  [("stem_word_count", []),
   ("option_word_count", []),
   ("innovation_word_count", []),
   ("domain_word_count", []),
   ("bad_word_count", ["junk"]),
   ("common_word_count", [])]

/-- The result `validate_response` produces for the response `2+2=4` on
question `q@1` of `envB` with weights `WnegB` and the `Pjunk` normalizer. -/
def rdB : ValidationResult :=
  attachMeta
    (parse_and_classify Pjunk "2+2=4" WnegB vdB (PyVal.bool true)
      (resolveTagNumeric (PyVal.bool false) (PyVal.bool true))
      (PyVal.bool false) (PyVal.bool true) (PyVal.int 10))
    (PyVal.bool false) (PyVal.bool false) (some "q@1")
    (uid_found_of envB (some "q@1"))

/-- Twenty training rows, all labelled valid. -/
def rows8 : List TrainRow :=
  List.replicate 20 ⟨"resp", Option.none, true⟩

/-- Two training rows with both label classes present. -/
def rows9 : List TrainRow :=
  [⟨"a", Option.none, true⟩, ⟨"b", Option.none, false⟩]

end RespVal

-- THEOREMS

namespace RespVal

theorem bump_lookup (c : List (String × Nat)) (k0 k : String) :
    List.lookup k (bump c k0) =
      if k = k0 then (List.lookup k c).map (fun n => n + 1)
      else List.lookup k c := by
  induction c with
  | nil => simp [bump]
  | cons a rest ih =>
    obtain ⟨ka, na⟩ := a
    by_cases hka : ka = k0
    · by_cases hk : k = ka
      · have hb : (k == ka) = true := by simp [hk]
        have hkk0 : k = k0 := hk.trans hka
        simp [bump, hka, List.lookup, hb, hkk0]
      · have hb : (k == ka) = false := by simp [hk]
        have hkk0 : ¬ k = k0 := fun h => hk (h.trans hka.symm)
        have hb2 : (k == k0) = false := by simp [hkk0]
        simp [bump, hka, List.lookup, hb, hb2, hkk0]
    · by_cases hk : k = ka
      · have hb : (k == ka) = true := by simp [hk]
        have hkk0 : ¬ k = k0 := fun h => hka (hk.symm.trans h)
        simp [bump, hka, List.lookup, hb, hkk0]
      · have hb : (k == ka) = false := by simp [hk]
        simp [bump, hka, List.lookup, hb, ih]

theorem countStep_lookup (W : List (String × ℚ)) (V : VocabDict)
    (c : List (String × Nat)) (w k : String) :
    List.lookup k (countStep W V c w) =
      if firstMatchKey W V w = some k then
        (List.lookup k c).map (fun n => n + 1)
      else List.lookup k c := by
  unfold countStep
  cases h : firstMatchKey W V w with
  | none => simp [h]
  | some k1 =>
    rw [bump_lookup]
    by_cases hk : k = k1
    · subst hk; simp
    · simp [hk, Ne.symm hk]

theorem foldl_countStep_lookup (W : List (String × ℚ)) (V : VocabDict)
    (ts : List String) (k : String) :
    ∀ c, List.lookup k (ts.foldl (countStep W V) c) =
      (List.lookup k c).map
        (fun n => n + (ts.filter (fun w => firstMatchKey W V w == some k)).length) := by
  induction ts with
  | nil =>
    intro c
    cases hc : List.lookup k c <;> simp [hc]
  | cons w ts ih =>
    intro c
    rw [List.foldl_cons, ih (countStep W V c w), countStep_lookup]
    by_cases h : firstMatchKey W V w = some k
    · have hb : (firstMatchKey W V w == some k) = true := by simp [h]
      simp only [h, if_pos, List.filter_cons, hb, if_true, List.length_cons]
      cases hc : List.lookup k c with
      | none => simp [hc]
      | some v => simp [hc]; omega
    · have hb : (firstMatchKey W V w == some k) = false := by simp [h]
      simp only [if_neg h, List.filter_cons, hb, Bool.false_eq_true, if_false]

theorem lookup_init_counts (W : List (String × ℚ)) (k : String) :
    List.lookup k (W.map (fun kv => (kv.1, 0))) =
      if k ∈ W.map Prod.fst then some 0 else Option.none := by
  induction W with
  | nil => simp
  | cons a W ih =>
    by_cases hk : k = a.1
    · subst hk; simp [List.lookup]
    · have hbeq : (k == a.1) = false := by simp [hk]
      by_cases hmem : k ∈ W.map Prod.fst
      · simp [List.lookup, hbeq, ih, hmem, List.mem_cons, hk]
      · simp [List.lookup, hbeq, ih, hmem, List.mem_cons, hk]

theorem firstMatchKey_mem (W : List (String × ℚ)) (V : VocabDict)
    (w k : String) (h : firstMatchKey W V w = some k) :
    ∃ kv, kv ∈ W ∧ kv.1 = k ∧ kv.2 ≠ 0 := by
  unfold firstMatchKey at h
  cases hf : W.find? (fun kv => decide (kv.2 ≠ 0) && (dictGet V kv.1).contains w) with
  | none => rw [hf] at h; simp at h
  | some kv =>
    rw [hf] at h
    simp at h
    refine ⟨kv, List.mem_of_find?_eq_some hf, h, ?_⟩
    have := List.find?_some hf
    simp at this
    exact this.1

theorem countsFor_lookup (W : List (String × ℚ)) (V : VocabDict)
    (ts : List String) (k : String) :
    countsLookup (countsFor W V ts) k =
      (ts.filter (fun w => firstMatchKey W V w == some k)).length := by
  unfold countsFor countsLookup
  rw [foldl_countStep_lookup, lookup_init_counts]
  by_cases hk : k ∈ W.map Prod.fst
  · simp [hk]
  · simp only [hk, if_false, Option.getD_none]
    have : (ts.filter (fun w => firstMatchKey W V w == some k)) = [] := by
      rw [List.filter_eq_nil_iff]
      intro w _ hw
      rw [beq_iff_eq] at hw
      obtain ⟨kv, hmem, hk1, _⟩ := firstMatchKey_mem W V w k hw
      exact hk (hk1 ▸ List.mem_map_of_mem Prod.fst hmem)
    simp [this]

theorem totalCount_bump (c : List (String × Nat)) (k : String) :
    totalCount (bump c k) ≤ totalCount c + 1 := by
  induction c with
  | nil => simp [bump, totalCount]
  | cons a rest ih =>
    obtain ⟨ka, na⟩ := a
    by_cases hka : ka = k
    · simp [bump, hka, totalCount]
      omega
    · simp only [totalCount, bump, if_neg hka, List.map_cons, List.sum_cons]
      have := ih
      simp only [totalCount] at this
      omega

theorem totalCount_foldl (W : List (String × ℚ)) (V : VocabDict)
    (ts : List String) :
    ∀ c, totalCount (ts.foldl (countStep W V) c) ≤ totalCount c + ts.length := by
  induction ts with
  | nil => intro c; simp
  | cons w ts ih =>
    intro c
    rw [List.foldl_cons]
    calc totalCount (ts.foldl (countStep W V) (countStep W V c w))
        ≤ totalCount (countStep W V c w) + ts.length := ih _
      _ ≤ totalCount c + 1 + ts.length := by
          have : totalCount (countStep W V c w) ≤ totalCount c + 1 := by
            unfold countStep
            cases firstMatchKey W V w with
            | none => simp
            | some k => exact totalCount_bump c k
          omega
      _ = totalCount c + (w :: ts).length := by simp; omega

theorem totalCount_init (W : List (String × ℚ)) :
    totalCount (W.map (fun kv => (kv.1, 0))) = 0 := by
  induction W with
  | nil => simp [totalCount]
  | cons a W ih => simpa [totalCount] using ih

/-- C1: For every token sequence, vocabulary bundle and weight mapping, the
feature-count computation increments at most one category count per token
(the total of all counts is bounded by the number of tokens); each
category's count is exactly the number of tokens whose first applicable
category - scanning in declared order, requiring non-zero weight and
vocabulary membership - is that category; and a category with weight
exactly zero is never incremented (its count stays 0). -/
theorem countsFor_first_match_wins (W : List (String × ℚ)) (V : VocabDict)
    (ts : List String) :
    totalCount (countsFor W V ts) ≤ ts.length
    ∧ (∀ k : String, countsLookup (countsFor W V ts) k =
        (ts.filter (fun w => firstMatchKey W V w == some k)).length)
    ∧ ((W.map Prod.fst).Nodup → ∀ k q, (k, q) ∈ W → q = 0 →
        countsLookup (countsFor W V ts) k = 0) := by
  refine ⟨?_, fun k => countsFor_lookup W V ts k, ?_⟩
  · have := totalCount_foldl W V ts (W.map (fun kv => (kv.1, 0)))
    rw [totalCount_init] at this
    simpa [countsFor] using this
  · intro hnd k q hmem hq
    rw [countsFor_lookup]
    rw [List.length_eq_zero, List.filter_eq_nil_iff]
    intro w _ hw
    rw [beq_iff_eq] at hw
    obtain ⟨kv, hkvmem, hk1, hne⟩ := firstMatchKey_mem W V w k hw
    have : kv = (k, q) := by
      apply List.inj_on_of_nodup_map hnd hkvmem hmem
      simp [hk1]
    rw [this] at hne
    exact hne hq

/-- Witness for C1 at a concrete input: weights declare category `a` with
weight 0 and `b` with weight 1, both vocabularies contain `x`; on tokens
`[x, x, y]` the total count is at most 3 and category `a` stays at 0. -/
theorem countsFor_first_match_wins_witness :
    totalCount (countsFor [("a", 0), ("b", 1)]
        [("a", ["x"]), ("b", ["x"])] ["x", "x", "y"]) ≤ 3
    ∧ countsLookup (countsFor [("a", 0), ("b", 1)]
        [("a", ["x"]), ("b", ["x"])] ["x", "x", "y"]) "a" = 0 :=
  ⟨(countsFor_first_match_wins [("a", 0), ("b", 1)]
      [("a", ["x"]), ("b", ["x"])] ["x", "x", "y"]).1,
   (countsFor_first_match_wins [("a", 0), ("b", 1)]
      [("a", ["x"]), ("b", ["x"])] ["x", "x", "y"]).2.2 (by decide) "a" 0
      (by decide) rfl⟩

/-- C2: with `spellingCorrection = "auto"`, `validate_response` scores
pass 1 with correction disabled; the reported result is pass 1 when it is
valid and otherwise the full pass-2 result with correction enabled; when
pass 1 is valid the reported correction count is that of pass 1, and the
result does not depend on what the normalizer would produce with
correction enabled (the second pass never runs); with a concrete boolean
setting, exactly one pass runs with that setting. -/
theorem validate_response_two_pass_policy (P : ParserFn) (env : Env)
    (response : String) (uid : Option String) (W : List (String × ℚ))
    (rs tn rn sm : PyVal) (vd : VocabDict) (uu : Option String) (hn : PyVal)
    (h : get_question_data env uid = some (vd, uu, hn)) :
    (validate_response P env response uid W rs tn (PyVal.str "auto") rn sm =
      some (attachMeta
        (if (parse_and_classify P response W vd rs (resolveTagNumeric tn hn)
              (PyVal.bool false) rn sm).valid then
          parse_and_classify P response W vd rs (resolveTagNumeric tn hn)
            (PyVal.bool false) rn sm
        else
          parse_and_classify P response W vd rs (resolveTagNumeric tn hn)
            (PyVal.bool true) rn sm)
        tn (PyVal.str "auto") uu (uid_found_of env uu)))
    ∧ ((parse_and_classify P response W vd rs (resolveTagNumeric tn hn)
          (PyVal.bool false) rn sm).valid = true →
        ∀ r, validate_response P env response uid W rs tn (PyVal.str "auto") rn sm =
            some r →
          r.num_spelling_correction =
            (parse_and_classify P response W vd rs (resolveTagNumeric tn hn)
              (PyVal.bool false) rn sm).num_spelling_correction)
    ∧ ((parse_and_classify P response W vd rs (resolveTagNumeric tn hn)
          (PyVal.bool false) rn sm).valid = true →
        ∀ Q : ParserFn,
          (∀ a b c d e, Q a b c (PyVal.bool false) d e =
            P a b c (PyVal.bool false) d e) →
          validate_response Q env response uid W rs tn (PyVal.str "auto") rn sm =
            validate_response P env response uid W rs tn (PyVal.str "auto") rn sm)
    ∧ (∀ b : Bool,
        validate_response P env response uid W rs tn (PyVal.bool b) rn sm =
          some (attachMeta
            (parse_and_classify P response W vd rs (resolveTagNumeric tn hn)
              (PyVal.bool b) rn sm)
            tn (PyVal.bool b) uu (uid_found_of env uu))) := by
  have hsc : isAuto (PyVal.str "auto") = true := rfl
  refine ⟨?_, ?_, ?_, ?_⟩
  · simp only [validate_response, h, hsc, if_true]
  · intro hv r hr
    simp only [validate_response, h, hsc, if_true, hv] at hr
    have := Option.some.inj hr
    rw [← this]
    rfl
  · intro hv Q hQ
    have hpass : parse_and_classify Q response W vd rs (resolveTagNumeric tn hn)
        (PyVal.bool false) rn sm =
        parse_and_classify P response W vd rs (resolveTagNumeric tn hn)
          (PyVal.bool false) rn sm := by
      simp only [parse_and_classify]
      rw [hQ]
    simp only [validate_response, h, hsc, if_true, hpass, hv]
  · intro b
    have hb : isAuto (PyVal.bool b) = false := rfl
    simp only [validate_response, h, hb, Bool.false_eq_true, if_false]

/-- Witness for C2 at a concrete input: with a one-category weight map and
a normalizer whose uncorrected token is a common word, pass 1 is valid and
the reported correction count is pass 1's (zero). -/
theorem validate_response_two_pass_policy_witness :
    ∃ r, validate_response Phi envC "hi" Option.none [("common_word_count", 1)]
        (PyVal.bool true) (PyVal.str "auto") (PyVal.str "auto") (PyVal.bool true)
        (PyVal.int 10) = some r
      ∧ r.num_spelling_correction = 0 := by
  have h := validate_response_two_pass_policy Phi envC "hi" Option.none
    [("common_word_count", 1)] (PyVal.bool true) (PyVal.str "auto")
    (PyVal.bool true) (PyVal.int 10) (defaultVocabDict envC) Option.none
    PyVal.none rfl
  have hcounts : countsFor [("common_word_count", 1)] (defaultVocabDict envC)
      ["hi"] = [("common_word_count", 1)] := by decide
  have hv : (parse_and_classify Phi "hi" [("common_word_count", 1)]
      (defaultVocabDict envC) (PyVal.bool true)
      (resolveTagNumeric (PyVal.str "auto") PyVal.none) (PyVal.bool false)
      (PyVal.bool true) (PyVal.int 10)).valid = true := by
    simp [parse_and_classify, Phi, hcounts, PARSER_FEATURE_INTERCEPT]
  refine ⟨_, h.1, ?_⟩
  have := h.2.1 hv _ h.1
  rw [this]
  rfl

/-- C3 (code bug): the expression `tag_numeric or ((tag_numeric == "auto")
and has_numeric)` at line 211 never converts `"auto"`: the string `"auto"`
is truthy, so `or` short-circuits and the resolved value stays the string
`"auto"` instead of the question's `containsNumeric` flag; a validation
run with `tagNumeric = "auto"` on a question whose numeric flag is false
reports `tag_numeric = "auto"`, not `false`. -/
theorem tag_numeric_auto_not_resolved :
    resolveTagNumeric (PyVal.str "auto") (PyVal.bool false) = PyVal.str "auto"
    ∧ resolveTagNumeric (PyVal.str "auto") (PyVal.bool true) = PyVal.str "auto"
    ∧ resolveTagNumeric (PyVal.str "auto") PyVal.none = PyVal.str "auto"
    ∧ (∃ r, validate_response Pnil envA "ans" (some "q@1") PARSER_FEATURE_DICT
          (PyVal.bool true) (PyVal.str "auto") (PyVal.bool false)
          (PyVal.bool true) (PyVal.int 10) = some r
        ∧ r.tag_numeric = PyVal.str "auto"
        ∧ r.tag_numeric ≠ PyVal.bool false) := by
  refine ⟨rfl, rfl, rfl, ⟨_, rfl, rfl, by decide⟩⟩

/-- C6: an absent question reference, or one matching neither a known uid
nor the qid prefix of any known uid, resolves to the default bundle:
empty stem/option/innovation/domain sets, the global bad/common sets,
no resolved uid and no numeric flag, and the validation result reports
`uid_found = false`; otherwise resolution is by exact uid first with a
qid-prefix fallback. -/
theorem get_question_data_unknown_default (env : Env) (u : String) :
    (get_question_data env Option.none =
      some (defaultVocabDict env, Option.none, PyVal.none))
    ∧ (u ∉ uidSet env → qid_of u ∉ qidSet env →
        get_question_data env (some u) =
          some (defaultVocabDict env, Option.none, PyVal.none))
    ∧ dictGet (defaultVocabDict env) "stem_word_count" = []
    ∧ dictGet (defaultVocabDict env) "option_word_count" = []
    ∧ dictGet (defaultVocabDict env) "innovation_word_count" = []
    ∧ dictGet (defaultVocabDict env) "domain_word_count" = []
    ∧ dictGet (defaultVocabDict env) "bad_word_count" = env.bad_vocab
    ∧ dictGet (defaultVocabDict env) "common_word_count" = env.common_vocab
    ∧ (u ∈ uidSet env →
        get_question_data env (some u) =
          (get_question_data_by_key env QKey.uid u).map
            (fun r => (r.1, some r.2.1, r.2.2)))
    ∧ (u ∉ uidSet env → qid_of u ∈ qidSet env →
        get_question_data env (some u) =
          (get_question_data_by_key env QKey.qid (qid_of u)).map
            (fun r => (r.1, some r.2.1, r.2.2)))
    ∧ (∀ P response W rs tn sc rn sm r,
        u ∉ uidSet env → qid_of u ∉ qidSet env →
        validate_response P env response (some u) W rs tn sc rn sm = some r →
        r.uid_found = false) := by
  refine ⟨rfl, ?_, rfl, rfl, rfl, rfl, rfl, rfl, ?_, ?_, ?_⟩
  · intro h1 h2
    simp only [get_question_data, h1, h2, if_false]
  · intro h1
    simp only [get_question_data, h1, if_true]
  · intro h1 h2
    simp only [get_question_data, h1, h2, if_false, if_true]
  · intro P response W rs tn sc rn sm r h1 h2 hr
    have hq : get_question_data env (some u) =
        some (defaultVocabDict env, Option.none, PyVal.none) := by
      simp only [get_question_data, h1, h2, if_false]
    simp only [validate_response, hq] at hr
    have := Option.some.inj hr
    rw [← this]
    rfl

/-- Witness for C6 at a concrete input: `zz@9` matches neither the uid
`q@1` nor the qid `q`, so resolution yields the default bundle and a run
reports `uid_found = false`. -/
theorem get_question_data_unknown_default_witness :
    get_question_data envA (some "zz@9") =
      some (defaultVocabDict envA, Option.none, PyVal.none)
    ∧ (∀ r, validate_response Pnil envA "x" (some "zz@9") PARSER_FEATURE_DICT
        (PyVal.bool true) (PyVal.str "auto") (PyVal.str "auto")
        (PyVal.bool true) (PyVal.int 10) = some r → r.uid_found = false) := by
  obtain ⟨h1, h2, h3, h4, h5, h6, h7, h8, h9, h10, hlast⟩ :=
    get_question_data_unknown_default envA "zz@9"
  exact ⟨h2 (by decide) (by decide),
    fun r hr => hlast Pnil "x" PARSER_FEATURE_DICT _ _ _ _ _ r
      (by decide) (by decide) hr⟩

theorem get_question_data_by_key_resolved_uid (env : Env) (key : QKey)
    (val : String) (d : VocabDict) (ru : String) (hb : PyVal)
    (h : get_question_data_by_key env key val = some (d, ru, hb)) :
    ∃ q, q ∈ env.questions ∧ ru = q.uid := by
  unfold get_question_data_by_key at h
  cases hq : env.questions.find? (fun q => keyVal key q == val) with
  | none => rw [hq] at h; exact absurd h (by simp)
  | some first_q =>
    rw [hq] at h
    dsimp only at h
    cases hi : env.innovation.find? (fun r => r.module_id == first_q.module_id) with
    | none => rw [hi] at h; exact absurd h (by simp)
    | some innov =>
      rw [hi] at h
      dsimp only at h
      cases hd : env.domain.find? (fun r => r.book_name == innov.subject_name) with
      | none => rw [hd] at h; exact absurd h (by simp)
      | some dom =>
        rw [hd] at h
        dsimp only at h
        refine ⟨first_q, List.mem_of_find?_eq_some hq, ?_⟩
        have := Option.some.inj h
        have hru := congrArg (fun t => t.2.1) this
        simpa using hru.symm

/-- C10: the resolved uid returned by question-data lookup is either
`None` or the uid field of a record in the question table, so the
reported `uid_found` flag is true exactly when a question was matched,
including matches made only via the qid-prefix fallback. -/
theorem resolved_uid_membership (env : Env) (uid : Option String)
    (vd : VocabDict) (uu : Option String) (hn : PyVal)
    (h : get_question_data env uid = some (vd, uu, hn)) :
    (uu = Option.none ∨ ∃ q, q ∈ env.questions ∧ uu = some q.uid)
    ∧ (∀ P response W rs tn sc rn sm r,
        validate_response P env response uid W rs tn sc rn sm = some r →
        r.uid_used = uu ∧ r.uid_found = uu.isSome) := by
  have hmem : uu = Option.none ∨ ∃ q, q ∈ env.questions ∧ uu = some q.uid := by
    unfold get_question_data at h
    cases uid with
    | none =>
      left
      have := Option.some.inj h
      exact (congrArg (fun t => t.2.1) this).symm
    | some u =>
      dsimp only at h
      by_cases h1 : u ∈ uidSet env
      · rw [if_pos h1] at h
        cases hk : get_question_data_by_key env QKey.uid u with
        | none => rw [hk] at h; exact absurd h (by simp)
        | some r0 =>
          rw [hk] at h
          obtain ⟨d0, ru0, hb0⟩ := r0
          obtain ⟨q, hqmem, hq⟩ :=
            get_question_data_by_key_resolved_uid env QKey.uid u d0 ru0 hb0 hk
          right
          refine ⟨q, hqmem, ?_⟩
          have := Option.some.inj h
          have huu := congrArg (fun t => t.2.1) this
          simp at huu
          rw [← huu, hq]
      · rw [if_neg h1] at h
        by_cases h2 : qid_of u ∈ qidSet env
        · rw [if_pos h2] at h
          cases hk : get_question_data_by_key env QKey.qid (qid_of u) with
          | none => rw [hk] at h; exact absurd h (by simp)
          | some r0 =>
            rw [hk] at h
            obtain ⟨d0, ru0, hb0⟩ := r0
            obtain ⟨q, hqmem, hq⟩ :=
              get_question_data_by_key_resolved_uid env QKey.qid
                (qid_of u) d0 ru0 hb0 hk
            right
            refine ⟨q, hqmem, ?_⟩
            have := Option.some.inj h
            have huu := congrArg (fun t => t.2.1) this
            simp at huu
            rw [← huu, hq]
        · rw [if_neg h2] at h
          left
          have := Option.some.inj h
          exact (congrArg (fun t => t.2.1) this).symm
  refine ⟨hmem, ?_⟩
  intro P response W rs tn sc rn sm r hr
  simp only [validate_response, h] at hr
  have hemeta := Option.some.inj hr
  constructor
  · rw [← hemeta]
    rfl
  · rw [← hemeta]
    show uid_found_of env uu = uu.isSome
    cases hmem with
    | inl hnone => rw [hnone]; rfl
    | inr hex =>
      obtain ⟨q, hqmem, hq⟩ := hex
      rw [hq]
      show (uidSet env).contains q.uid = true
      have : q.uid ∈ uidSet env := List.mem_map_of_mem (fun x => x.uid) hqmem
      simpa using this

theorem zip_map_sum_eq_dotSum (c : List (String × Nat)) (W : List (String × ℚ)) :
    ((c.zip W).map (fun p => (p.1.2 : ℚ) * p.2.2)).sum =
      dotSum (c.map (fun kv => kv.2)) (W.map (fun kv => kv.2)) := by
  induction c generalizing W with
  | nil => simp [dotSum]
  | cons a c ih =>
    cases W with
    | nil => simp [dotSum]
    | cons b W => simp [dotSum, ih]

theorem dotSum_zeros (cs : List Nat) (ws : List ℚ) (h : ∀ w ∈ ws, w = 0) :
    dotSum cs ws = 0 := by
  induction cs generalizing ws with
  | nil => simp [dotSum]
  | cons c cs ih =>
    cases ws with
    | nil => simp [dotSum]
    | cons w ws =>
      have hw : w = 0 := h w (by simp)
      have hrest : ∀ x ∈ ws, x = 0 := fun x hx => h x (by simp [hx])
      simp [dotSum, hw, ih ws hrest]

/-- C5: the inner product equals the weighted sum of the category counts
plus the intercept constant; validity holds exactly when the inner
product is strictly positive (exactly zero is invalid); and when every
feature weight is zero the inner product equals the intercept and
validity is exactly `intercept > 0`. -/
theorem inner_product_linear_decision (P : ParserFn) (response : String)
    (W : List (String × ℚ)) (V : VocabDict) (rs tn sc rn sm : PyVal) :
    ((parse_and_classify P response W V rs tn sc rn sm).inner_product =
      dotSum ((parse_and_classify P response W V rs tn sc rn sm).counts.map
        (fun kv => kv.2)) (W.map (fun kv => kv.2)) + PARSER_FEATURE_INTERCEPT)
    ∧ ((parse_and_classify P response W V rs tn sc rn sm).valid = true ↔
        (parse_and_classify P response W V rs tn sc rn sm).inner_product > 0)
    ∧ ((parse_and_classify P response W V rs tn sc rn sm).inner_product = 0 →
        (parse_and_classify P response W V rs tn sc rn sm).valid = false)
    ∧ ((∀ kv ∈ W, kv.2 = 0) →
        (parse_and_classify P response W V rs tn sc rn sm).inner_product =
          PARSER_FEATURE_INTERCEPT
        ∧ ((parse_and_classify P response W V rs tn sc rn sm).valid = true ↔
            PARSER_FEATURE_INTERCEPT > 0)) := by
  have hip : (parse_and_classify P response W V rs tn sc rn sm).inner_product =
      dotSum ((parse_and_classify P response W V rs tn sc rn sm).counts.map
        (fun kv => kv.2)) (W.map (fun kv => kv.2)) + PARSER_FEATURE_INTERCEPT := by
    show (((countsFor W V (P response rs tn sc rn sm).1).zip W).map
        (fun p => (p.1.2 : ℚ) * p.2.2)).sum + PARSER_FEATURE_INTERCEPT = _
    rw [zip_map_sum_eq_dotSum]
    rfl
  have hv : (parse_and_classify P response W V rs tn sc rn sm).valid =
      decide ((parse_and_classify P response W V rs tn sc rn sm).inner_product >
        0) := rfl
  refine ⟨hip, ?_, ?_, ?_⟩
  · rw [hv, decide_eq_true_eq]
  · intro h0
    rw [hv, h0]
    norm_num
  · intro hz
    have hws : ∀ w ∈ W.map (fun kv => kv.2), w = 0 := by
      intro w hw
      obtain ⟨kv, hkv, hkv2⟩ := List.mem_map.mp hw
      rw [← hkv2]
      exact hz kv hkv
    have h0 : (parse_and_classify P response W V rs tn sc rn sm).inner_product =
        PARSER_FEATURE_INTERCEPT := by
      rw [hip, dotSum_zeros _ _ hws, zero_add]
    exact ⟨h0, by rw [hv, h0, decide_eq_true_eq]⟩

/-- Witness for C5 at a concrete input: with the single category weighted
zero, the inner product is the intercept and validity is exactly
`intercept > 0`. -/
theorem inner_product_linear_decision_witness :
    (parse_and_classify Pnil "x" [("bad_word_count", 0)] [] (PyVal.bool true)
      (PyVal.bool false) (PyVal.bool false) (PyVal.bool true)
      (PyVal.int 10)).inner_product = PARSER_FEATURE_INTERCEPT
    ∧ ((parse_and_classify Pnil "x" [("bad_word_count", 0)] [] (PyVal.bool true)
      (PyVal.bool false) (PyVal.bool false) (PyVal.bool true)
      (PyVal.int 10)).valid = true ↔ PARSER_FEATURE_INTERCEPT > 0) :=
  (inner_product_linear_decision Pnil "x" [("bad_word_count", 0)] []
    (PyVal.bool true) (PyVal.bool false) (PyVal.bool false) (PyVal.bool true)
    (PyVal.int 10)).2.2.2 (by decide)

/-- C4: the math-override variant reports
`finalValid = linearValid OR (containsNumeric AND matchesMathPattern)`,
where the math pattern holds exactly when the raw response contains one
of `+ - * = /` or a digit; in particular a numeric-content question with
a math-matching response is reported valid regardless of the linear
score. -/
theorem validation_new_math_or (P : ParserFn) (env : Env) (response : String)
    (uid : Option String) (W : List (String × ℚ)) (rs tn sc rn sm : PyVal)
    (rd : ValidationResult) (vd2 : VocabDict) (uu2 : Option String) (hn : PyVal)
    (h1 : validate_response P env response uid W rs tn sc rn sm = some rd)
    (h2 : get_question_data env rd.uid_used = some (vd2, uu2, hn)) :
    validation_new P env response uid W rs tn sc rn sm =
      some { rd with valid := rd.valid || (truthy hn && respHasMath response) }
    ∧ (respHasMath response = true ↔
        ∃ c ∈ response.toList,
          c = '+' ∨ c = '-' ∨ c = '*' ∨ c = '=' ∨ c = '/' ∨ c.isDigit = true)
    ∧ (truthy hn = true → respHasMath response = true →
        ∀ r, validation_new P env response uid W rs tn sc rn sm = some r →
          r.valid = true) := by
  have hmain : validation_new P env response uid W rs tn sc rn sm =
      some { rd with valid := rd.valid || (truthy hn && respHasMath response) } := by
    simp only [validation_new, h1, h2]
  refine ⟨hmain, ?_, ?_⟩
  · simp only [respHasMath, List.any_eq_true, Bool.or_eq_true, decide_eq_true_eq]
    constructor
    · rintro ⟨c, hc, h⟩
      exact ⟨c, hc, by tauto⟩
    · rintro ⟨c, hc, h⟩
      exact ⟨c, hc, by tauto⟩
  · intro ht hm r hr
    rw [hmain] at hr
    have := Option.some.inj hr
    rw [← this]
    simp [ht, hm]

/-- Witness for C4 at a concrete input: on `envB` the question `q@1` has
numeric content; the response `2+2=4` with bad-word weight -3 scores
linearly invalid, yet the override reports it valid. -/
theorem validation_new_math_or_witness :
    validate_response Pjunk envB "2+2=4" (some "q@1") WnegB (PyVal.bool true)
      (PyVal.bool false) (PyVal.bool false) (PyVal.bool true) (PyVal.int 10) =
      some rdB
    ∧ rdB.valid = false
    ∧ (∃ r, validation_new Pjunk envB "2+2=4" (some "q@1") WnegB
        (PyVal.bool true) (PyVal.bool false) (PyVal.bool false)
        (PyVal.bool true) (PyVal.int 10) = some r ∧ r.valid = true) := by
  have hthm := validation_new_math_or Pjunk envB "2+2=4" (some "q@1") WnegB
    (PyVal.bool true) (PyVal.bool false) (PyVal.bool false) (PyVal.bool true)
    (PyVal.int 10) rdB vdB (some "q@1") (PyVal.bool true) rfl rfl
  have hm : respHasMath "2+2=4" = true := by decide
  have hcounts : countsFor [("bad_word_count", -3)] vdB ["junk"] =
      [("bad_word_count", 1)] := by decide
  have hvalid : rdB.valid = false := by
    show (parse_and_classify Pjunk "2+2=4" WnegB vdB (PyVal.bool true)
      (resolveTagNumeric (PyVal.bool false) (PyVal.bool true))
      (PyVal.bool false) (PyVal.bool true) (PyVal.int 10)).valid = false
    simp [parse_and_classify, Pjunk, WnegB, hcounts, PARSER_FEATURE_INTERCEPT]
  refine ⟨rfl, hvalid, ⟨_, hthm.1, ?_⟩⟩
  simp [hm, truthy]

theorem tokens_eq (var default : PyVal) :
    (if isAuto var || isBoolType var then var
     else if inStrTuple var falseTokens then PyVal.bool false
     else if inStrTuple var trueTokens then PyVal.bool true
     else default) = tristateTokens var default := by
  cases var with
  | str s =>
    by_cases ha : s = "auto"
    · simp [isAuto, ha, tristateTokens]
    · have hba : (s == "auto") = false := by simp [ha]
      by_cases hf : s = "False" ∨ s = "false" ∨ s = "f" ∨ s = "0" ∨
          s = "None" ∨ s = ""
      · have hc : inStrTuple (PyVal.str s) falseTokens = true := by
          simp [inStrTuple, falseTokens]
          rcases hf with h | h | h | h | h | h <;> simp [h]
        simp [isAuto, isBoolType, hba, hc, tristateTokens, ha, hf]
      · have hc1 : inStrTuple (PyVal.str s) falseTokens = false := by
          simp [inStrTuple, falseTokens]
          push_neg at hf
          exact hf
        by_cases ht : s = "True" ∨ s = "true" ∨ s = "t" ∨ s = "1"
        · have hc2 : inStrTuple (PyVal.str s) trueTokens = true := by
            simp [inStrTuple, trueTokens]
            rcases ht with h | h | h | h <;> simp [h]
          simp [isAuto, isBoolType, hba, hc1, hc2, tristateTokens, ha, hf, ht]
        · have hc2 : inStrTuple (PyVal.str s) trueTokens = false := by
            simp [inStrTuple, trueTokens]
            push_neg at ht
            exact ht
          simp [isAuto, isBoolType, hba, hc1, hc2, tristateTokens, ha, hf, ht]
  | bool b => simp [isAuto, isBoolType, inStrTuple, tristateTokens]
  | int n => simp [isAuto, isBoolType, inStrTuple, tristateTokens]
  | float q => simp [isAuto, isBoolType, inStrTuple, tristateTokens]
  | none => simp [isAuto, isBoolType, inStrTuple, tristateTokens]

/-- C7 (amended): the tristate coercion parses the input as int then as
float exactly when the declared default's Python type is `int` (float and
boolean defaults do not trigger numeric parsing); otherwise, and when
both parses fail, `"auto"` and actual booleans pass through unchanged,
the exact case-sensitive literals `False/false/f/0/None/`(empty) map to
false and `True/true/t/1` map to true, and anything unrecognized falls
back to the declared default. -/
theorem make_tristate_characterization (var default : PyVal) :
    make_tristate var default = make_tristate_amended var default := by
  cases default with
  | int n =>
    simp only [make_tristate, make_tristate_amended, isIntType, if_true]
    cases hpi : pyIntOpt var with
    | some v => simp [hpi]
    | none =>
      cases hpf : pyFloatOpt var with
      | some v => simp [hpi, hpf]
      | none =>
        simp only [hpi, hpf]
        exact tokens_eq var (PyVal.int n)
  | bool b => exact tokens_eq var (PyVal.bool b)
  | float q => exact tokens_eq var (PyVal.float q)
  | str s => exact tokens_eq var (PyVal.str s)
  | none => exact tokens_eq var PyVal.none

/-- C7 (counterexample): the boolean-literal matching of `make_tristate`
is case-sensitive, so `FALSE` and `TRUE` fall back to the declared
default instead of mapping to booleans; and a float-typed default (Python
`type(2.0) == int` is false) never triggers numeric parsing, so the
numeric string `3` also falls back to the default. -/
theorem make_tristate_case_and_float_counterexample :
    make_tristate (PyVal.str "FALSE") (PyVal.bool true) = PyVal.bool true
    ∧ make_tristate (PyVal.str "FALSE") (PyVal.bool true) ≠ PyVal.bool false
    ∧ make_tristate (PyVal.str "TRUE") (PyVal.bool false) = PyVal.bool false
    ∧ make_tristate (PyVal.str "TRUE") (PyVal.bool false) ≠ PyVal.bool true
    ∧ make_tristate (PyVal.str "3") (PyVal.float 2) = PyVal.float 2
    ∧ make_tristate (PyVal.str "3") (PyVal.float 2) ≠ PyVal.int 3
    ∧ make_tristate (PyVal.str "3") (PyVal.float 2) ≠ PyVal.float 3 := by
  decide

/-- C8: with the spec-modelled external fit and cross-validation (which
cannot converge on a single-class label set), calibration on rows all
labelled valid surfaces `DegenerateTrainingSetError` to the caller, while
a training set containing both label classes fits successfully. -/
theorem validation_train_degenerate (P : ParserFn) (env : Env)
    (W : List (String × ℚ)) (rs tn sc rn sm : PyVal) (cv : ℕ)
    (rows : List TrainRow) (output : List ValidationResult)
    (hout : buildOutputRows P env W rs tn sc rn sm rows = some output) :
    ((∀ row ∈ rows, row.valid_label = true) →
      validation_train fitModelled cross_val_modelled P env W rs tn sc rn sm
        cv rows = some (Except.error TrainError.degenerateTrainingSet))
    ∧ ((∃ r1 ∈ rows, r1.valid_label = true) →
      (∃ r2 ∈ rows, r2.valid_label = false) →
        ∃ res, validation_train fitModelled cross_val_modelled P env W rs tn sc
          rn sm cv rows = some (Except.ok res)) := by
  constructor
  · intro hall
    have hsc : singleClass (rows.map (fun row => row.valid_label)) = true := by
      have hall2 : (rows.map (fun row => row.valid_label)).all
          (fun b => b) = true := by
        rw [List.all_eq_true]
        intro b hb
        obtain ⟨row, hrow, hrb⟩ := List.mem_map.mp hb
        simp [← hrb, hall row hrow]
      simp [singleClass, hall2]
    simp only [validation_train, hout]
    by_cases hcv : cv > 1
    · simp only [hcv, if_true, cross_val_modelled, hsc, fitModelled]
      rfl
    · simp only [hcv, Bool.false_eq_true, if_false, fitModelled, hsc]
      rfl
  · intro hex1 hex2
    obtain ⟨r1, hr1, hl1⟩ := hex1
    obtain ⟨r2, hr2, hl2⟩ := hex2
    have ha : (rows.map (fun row => row.valid_label)).all (fun b => b) = false := by
      apply List.all_eq_false.mpr
      exact ⟨r2.valid_label, List.mem_map_of_mem _ hr2, by simp [hl2]⟩
    have hb : (rows.map (fun row => row.valid_label)).all (fun b => !b) = false := by
      apply List.all_eq_false.mpr
      exact ⟨r1.valid_label, List.mem_map_of_mem _ hr1, by simp [hl1]⟩
    have hsc : singleClass (rows.map (fun row => row.valid_label)) = false := by
      simp [singleClass, ha, hb]
    simp only [validation_train, hout]
    by_cases hcv : cv > 1
    · simp only [hcv, if_true, cross_val_modelled, hsc, fitModelled]
      exact ⟨_, rfl⟩
    · simp only [hcv, Bool.false_eq_true, if_false, fitModelled, hsc]
      exact ⟨_, rfl⟩

/-- Witness for C8 at a concrete input: twenty rows all labelled valid
make calibration report the degenerate-training-set failure. -/
theorem validation_train_degenerate_witness :
    validation_train fitModelled cross_val_modelled Phi envC
      [("common_word_count", 1)] (PyVal.bool true) (PyVal.bool false)
      (PyVal.bool false) (PyVal.bool true) (PyVal.int 10) 5 rows8 =
      some (Except.error TrainError.degenerateTrainingSet) :=
  (validation_train_degenerate Phi envC [("common_word_count", 1)]
    (PyVal.bool true) (PyVal.bool false) (PyVal.bool false) (PyVal.bool true)
    (PyVal.int 10) 5 rows8 _ rfl).1 (by decide)

/-- C9: when the requested fold count exceeds 1 the reported score is the
mean of the per-fold cross-validation scores, and when it is at most 1
cross-validation is skipped (the result does not depend on the
cross-validation function at all) and the `-1` sentinel is reported; in
both cases the final model is fitted on the full feature matrix, giving
the reported intercept and one coefficient per selected category. -/
theorem validation_train_cv_policy (fit : FitFn) (cvs : CvFn) (P : ParserFn)
    (env : Env) (W : List (String × ℚ)) (rs tn sc rn sm : PyVal) (cv : ℕ)
    (rows : List TrainRow) (output : List ValidationResult)
    (scores coefs : List ℚ) (b : ℚ)
    (hout : buildOutputRows P env W rs tn sc rn sm rows = some output)
    (hcv : cvs cv (designMatrix (features_to_consider W) output)
      (rows.map (fun row => row.valid_label)) = Except.ok scores)
    (hfit : fit (designMatrix (features_to_consider W) output)
      (rows.map (fun row => row.valid_label)) = Except.ok (coefs, b)) :
    (∃ res, validation_train fit cvs P env W rs tn sc rn sm cv rows =
        some (Except.ok res)
      ∧ res.cross_val_score = (if cv > 1 then meanScores scores else -1)
      ∧ res.intercept = b
      ∧ res.coefficients = (features_to_consider W).zip coefs
      ∧ (coefs.length = (features_to_consider W).length →
          res.coefficients.map Prod.fst = features_to_consider W
          ∧ res.coefficients.length = (features_to_consider W).length))
    ∧ (cv ≤ 1 → ∀ cvs2 : CvFn,
        validation_train fit cvs2 P env W rs tn sc rn sm cv rows =
          validation_train fit cvs P env W rs tn sc rn sm cv rows) := by
  constructor
  · have hmain : validation_train fit cvs P env W rs tn sc rn sm cv rows =
        some (Except.ok
          { coefficients := (features_to_consider W).zip coefs
            intercept := b
            cross_val_score := if cv > 1 then meanScores scores else -1
            output_rows := output }) := by
      simp only [validation_train, hout]
      by_cases hcv1 : cv > 1
      · simp only [hcv1, if_true, hcv, hfit]
        rfl
      · simp only [hcv1, Bool.false_eq_true, if_false, hfit]
        rfl
    refine ⟨_, hmain, rfl, rfl, rfl, ?_⟩
    intro hlen
    constructor
    · exact List.map_fst_zip _ _ (le_of_eq hlen.symm)
    · rw [List.length_zip, hlen, min_self]
  · intro hle cvs2
    have h1 : ¬ cv > 1 := by omega
    simp only [validation_train, hout, h1, if_false]

/-- Witness for C9 at a concrete input: two rows with both label classes,
five folds; the reported score is the mean of the five fold scores and
the one selected category receives one coefficient. -/
theorem validation_train_cv_policy_witness :
    ∃ res, validation_train fitModelled cross_val_modelled Phi envC
        [("common_word_count", 1)] (PyVal.bool true) (PyVal.bool false)
        (PyVal.bool false) (PyVal.bool true) (PyVal.int 10) 5 rows9 =
        some (Except.ok res)
      ∧ res.cross_val_score = meanScores (List.replicate 5 1)
      ∧ res.coefficients = [("common_word_count", 0)] := by
  obtain ⟨⟨res, hres, hscore, hint, hcoef, hlen⟩, _⟩ :=
    validation_train_cv_policy fitModelled cross_val_modelled Phi envC
      [("common_word_count", 1)] (PyVal.bool true) (PyVal.bool false)
      (PyVal.bool false) (PyVal.bool true) (PyVal.int 10) 5 rows9 _
      (List.replicate 5 1) [0] 0 rfl rfl rfl
  refine ⟨res, hres, ?_, ?_⟩
  · rw [hscore]
    norm_num
  · rw [hcoef]
    decide

/-- Witness for C10 at a concrete input: the reference `q@2` is not a
known uid but its qid prefix `q` matches `q@1`, so the resolved uid is
`q@1` and `uid_found` is reported true. -/
theorem resolved_uid_membership_witness :
    ∃ r, validate_response Pnil envA "x" (some "q@2") PARSER_FEATURE_DICT
        (PyVal.bool true) (PyVal.bool false) (PyVal.bool false)
        (PyVal.bool true) (PyVal.int 10) = some r
      ∧ r.uid_found = true := by
  have hq : get_question_data envA (some "q@2") =
      some ([("stem_word_count", []),
             ("option_word_count", []),
             ("innovation_word_count", []),
             ("domain_word_count", []),
             ("bad_word_count", []),
             ("common_word_count", [])],
            some "q@1", PyVal.bool false) := rfl
  obtain ⟨r, hr⟩ : ∃ r, validate_response Pnil envA "x" (some "q@2")
      PARSER_FEATURE_DICT (PyVal.bool true) (PyVal.bool false)
      (PyVal.bool false) (PyVal.bool true) (PyVal.int 10) = some r := ⟨_, rfl⟩
  have h2 := (resolved_uid_membership envA (some "q@2") _ _ _ hq).2
    Pnil "x" PARSER_FEATURE_DICT _ _ _ _ _ r hr
  exact ⟨r, hr, h2.2.trans rfl⟩

end RespVal
